import Mathlib

/-!
Verification of the `eval_averages` extraction pipeline.

The development shallowly embeds the core of `src/extract.py` (the line
reconstructor `extract_page`, the field extractors `extract_frontpage` and
`extract_data_from_page`, and the per-document driver `parse_pdf_xml`) and
the rating aggregation of `src/calculate.py` (`Rating.add`).

Python strings are modelled as Lean `String`s; the handful of Python string
operations the source uses (`in`, `split(sep)`, `split(sep, 1)`, `strip()`,
slicing) are reimplemented on character lists with structural recursion so
that every concrete scenario evaluates inside the kernel.  Python `float`
coordinates are modelled as `ℚ` (the source assumes exact equality of
coordinates produced by one converter run).  Python statements that can
raise (`a, b = xs` unpacking, out-of-range indexing, `None.update`) are
modelled with an `Except PyErr` result.
-/

namespace EvalAverages

/-- Bool test that `sep` is a prefix of the character list. -/
def isPrefixL : List Char → List Char → Bool
  | [], _ => true
  | _ :: _, [] => false
  | a :: as, b :: bs => a == b && isPrefixL as bs

/-- Leftmost occurrence of `sep`: `some (before, after)` splits the list
around the first occurrence of `sep`, `none` when `sep` does not occur.
For the empty `sep` this matches at position 0 (Python instead raises on
`split("")`, but the source only ever splits on nonempty literals). -/
def splitFirstL (sep : List Char) : List Char → Option (List Char × List Char)
  | [] => if isPrefixL sep [] then some ([], []) else none
  | c :: cs =>
    if isPrefixL sep (c :: cs) then some ([], List.drop sep.length (c :: cs))
    else (splitFirstL sep cs).map (fun p => (c :: p.1, p.2))

/-- Fuelled repeated splitting at every non-overlapping occurrence of `sep`,
left to right; `s.length + 1` fuel always suffices for nonempty `sep`. -/
def splitAllFuel (sep : List Char) : Nat → List Char → List (List Char)
  | 0, s => [s]
  | fuel + 1, s =>
    match splitFirstL sep s with
    | none => [s]
    | some (b, a) => b :: splitAllFuel sep fuel a

/-- Python `s.split(sep)` for a nonempty separator. -/
def pySplitAll (s sep : String) : List String :=
  (splitAllFuel sep.data (s.data.length + 1) s.data).map String.mk

/-- Python `sep in s`. -/
def pyContains (s sep : String) : Bool :=
  (splitFirstL sep.data s.data).isSome

/-- Python `s.split(sep, 1)` when the separator occurs (two parts); `none`
when it does not occur (Python would return the one-element list `[s]`). -/
def pySplit1 (s sep : String) : Option (String × String) :=
  (splitFirstL sep.data s.data).map (fun p => (String.mk p.1, String.mk p.2))

/-- Python `s.strip()`: whitespace removed from both ends. -/
def pyStrip (s : String) : String :=
  String.mk (((s.data.dropWhile Char.isWhitespace).reverse.dropWhile
    Char.isWhitespace).reverse)

/-- Python slice `s[n:]` (character based). -/
def pyDrop (s : String) (n : Nat) : String :=
  String.mk (s.data.drop n)

/-- Python slice `l[-n:]`: the last `min n (length l)` elements. -/
def lastN (n : Nat) (l : List α) : List α :=
  l.drop (l.length - n)

/-- Python `" ".join(parts)`. -/
def joinSp : List String → String
  | [] => ""
  | [s] => s
  | s :: rest => s ++ " " ++ joinSp rest

/-- Exceptions the embedded Python fragments can raise. -/
inductive PyErr where
  | valueError
  | indexError
  | attributeError
  deriving DecidableEq

instance {ε α : Type} [DecidableEq ε] [DecidableEq α] : DecidableEq (Except ε α) :=
  fun a b =>
    match a, b with
    | .error e, .error f =>
      if h : e = f then isTrue (by rw [h]) else isFalse (fun hh => h (by injection hh))
    | .error _, .ok _ => isFalse (fun h => Except.noConfusion h)
    | .ok _, .error _ => isFalse (fun h => Except.noConfusion h)
    | .ok x, .ok y =>
      if h : x = y then isTrue (by rw [h]) else isFalse (fun hh => h (by injection hh))

/-- Fixed title literal `LINE_TITLE` of `extract.py` (line 18). -/
def LINE_TITLE : String := "15 Taking everything into account, the instructor was:"

/-- Fixed header literal `LINE_COLS` of `extract.py` (line 19). -/
def LINE_COLS : String := "Field Mean Std Deviation Count"

/-- Sentinel first line for pages without responses (`extract.py` line 49). -/
def NO_RESULTS : String :=
  "There are no results yet to show. Please distribute your survey to gather responses."

/-- Embedding of `extract_paren` (`extract.py` lines 21-22): Python `s[1:-1]`,
the first and last characters removed, whatever they are. -/
def extract_paren (s : String) : String :=
  String.mk ((s.data.drop 1).dropLast)

/-- A positioned word on a page: `text`, `xMin` and `yMin` of its box. -/
structure Token where
  text : String
  x : ℚ
  y : ℚ
  deriving DecidableEq

/-- Sort key of `extract.py` line 34: ascending `(y, x)` lexicographically. -/
def tokenLE (a b : Token) : Prop := a.y < b.y ∨ (a.y = b.y ∧ a.x ≤ b.x)

instance : DecidableRel tokenLE := fun a b =>
  inferInstanceAs (Decidable (a.y < b.y ∨ (a.y = b.y ∧ a.x ≤ b.x)))

instance : IsTotal Token tokenLE := by
  constructor
  intro a b
  rcases lt_trichotomy a.y b.y with h | h | h
  · exact Or.inl (Or.inl h)
  · rcases le_total a.x b.x with hx | hx
    · exact Or.inl (Or.inr ⟨h, hx⟩)
    · exact Or.inr (Or.inr ⟨h.symm, hx⟩)
  · exact Or.inr (Or.inl h)

instance : IsTrans Token tokenLE := by
  constructor
  intro a b c hab hbc
  rcases hab with h1 | ⟨h1, h1x⟩
  · rcases hbc with h2 | ⟨h2, _⟩
    · exact Or.inl (h1.trans h2)
    · exact Or.inl (h2 ▸ h1)
  · rcases hbc with h2 | ⟨h2, h2x⟩
    · exact Or.inl (h1 ▸ h2)
    · exact Or.inr ⟨h1.trans h2, h1x.trans h2x⟩

/-- Embedding of `words.sort(key=lambda w: (w['y'], w['x']))` (`extract.py`
line 34).  Python's sort is stable and orders by the key; insertion sort
with the lexicographic key relation is also stable, so the two agree. -/
def sortTokens (ws : List Token) : List Token := List.insertionSort tokenLE ws

/-- Embedding of the line-building loop of `extract.py` lines 40-47: walk
the sorted words, starting a new line whenever `y` changes from the previous
word's `y`, and append the final line. -/
def walkAux : List Token → ℚ → List String → List String
  | [], _, line => [joinSp line]
  | w :: ws, lastY, line =>
    if lastY ≠ w.y then joinSp line :: walkAux ws w.y [w.text]
    else walkAux ws lastY (line ++ [w.text])

/-- Embedding of `extract_page` (`extract.py` lines 24-51): sort the page's
tokens by `(y, x)`, group them into lines at every change of `y`, join each
line with single spaces, and drop the first line when it is the no-results
sentinel. -/
def extract_page (page : List Token) : List String :=
  match sortTokens page with
  | [] => []
  | w :: ws =>
    match walkAux (w :: ws) w.y [] with
    | [] => []
    | t0 :: rest => if t0 = NO_RESULTS then rest else t0 :: rest

/-- Front-page record returned by `extract_frontpage`. -/
structure FrontRec where
  course : String
  instructor : String
  year : String
  semester : String
  deriving DecidableEq

/-- Embedding of `extract_frontpage` lines 69-77: split `before` into year
and semester at the first space, then split `after` into course and
instructor, either at the first `)` (kept on the course) or at the first
space of the stripped remainder.  A failed two-element unpacking raises
`ValueError` as in Python. -/
def frontRest (before after : String) : Except PyErr (Option FrontRec) :=
  match pySplit1 (pyStrip before) " " with
  | none => .error .valueError
  | some (year, semester) =>
    if pyContains after ")" then
      match pySplitAll after ")" with
      | [c, i] => .ok (some ⟨c ++ ")", pyStrip i, year, semester⟩)
      | _ => .error .valueError
    else
      match pySplit1 (pyStrip after) " " with
      | none => .error .valueError
      | some (c, i) => .ok (some ⟨c, i, year, semester⟩)

/-- Embedding of `before, after = line.split(name + " -")` (`extract.py`
line 62): Python's full split must produce exactly two parts (exactly one
occurrence of the separator), otherwise the unpacking raises `ValueError`. -/
def sepPath (line sep : String) : Except PyErr (Option FrontRec) :=
  match pySplitAll line sep with
  | [b, a] => frontRest b a
  | _ => .error .valueError

/-- Embedding of `extract_frontpage` (`extract.py` lines 53-77).  The loop
`for name in ["Eval", "Evals", "Evaluation"]` tries `"Eval -"`, `"Evals -"`,
`"Evaluation -"` in that order; when none occurs, the fallback splits at the
first occurrence of `"CS"` (`line.split("CS", 1)`, the separator consumed);
with no separator at all the page yields no match. -/
def extract_frontpage (table : List String) : Except PyErr (Option FrontRec) :=
  match table with
  | [] => .ok none
  | [_] => .ok none
  | _ :: line :: _ =>
    if pyContains line "Eval -" then sepPath line "Eval -"
    else if pyContains line "Evals -" then sepPath line "Evals -"
    else if pyContains line "Evaluation -" then sepPath line "Evaluation -"
    else
      match splitFirstL "CS".data line.data with
      | some (b, a) => frontRest (String.mk b) (String.mk a)
      | none => .ok none

/-- Rating-table record returned by `extract_data_from_page`: every field is
a Python string (the source never parses them to numbers). -/
structure DataRec where
  mean : String
  std_deviation : String
  count : String
  poor : String
  below_average : String
  average : String
  good : String
  excellent : String
  deriving DecidableEq

/-- Embedding of `extract_data_from_page` (`extract.py` lines 79-109).
`table[0] != LINE_TITLE or table[1] != LINE_COLS` short-circuits, so
`table[1]` raises `IndexError` only when the sole line equals the title;
after dropping two lines, `table[0]` raises `IndexError` on an empty rest;
the three statistics are the last three space-separated tokens of the third
line after `len(LINE_TITLE) + 2` characters are discarded; the last line
must split into exactly eleven space-separated tokens, unpacked positionally
(`ValueError` otherwise), with no check of their shape or numeric content. -/
def extract_data_from_page (table : List String) : Except PyErr (Option DataRec) :=
  match table with
  | [] => .ok none
  | t0 :: rest =>
    if t0 ≠ LINE_TITLE then .ok none
    else
      match rest with
      | [] => .error .indexError
      | t1 :: rest2 =>
        if t1 ≠ LINE_COLS then .ok none
        else
          match rest2 with
          | [] => .error .indexError
          | s0 :: rest3 =>
            match lastN 3 (pySplitAll (pyDrop s0 (LINE_TITLE.length + 2)) " ") with
            | [mean, stdev, cnt] =>
              match pySplitAll (((s0 :: rest3).getLast?).getD "") " " with
              | [_, poor, _, _, below, _, avg, _, good2, _, exc] =>
                .ok (some ⟨mean, stdev, cnt, extract_paren poor,
                  extract_paren below, extract_paren avg,
                  extract_paren good2, extract_paren exc⟩)
              | _ => .error .valueError
            | _ => .error .valueError

/-- Merged per-document record: `frontpage.update(res)` joins the four
front-matter keys with the eight rating-table keys. -/
structure MergedRec where
  course : String
  instructor : String
  year : String
  semester : String
  mean : String
  std_deviation : String
  count : String
  poor : String
  below_average : String
  average : String
  good : String
  excellent : String
  deriving DecidableEq

/-- Dictionary union performed by `frontpage.update(res)` on disjoint keys. -/
def mergeRecs (f : FrontRec) (d : DataRec) : MergedRec :=
  ⟨f.course, f.instructor, f.year, f.semester, d.mean, d.std_deviation,
    d.count, d.poor, d.below_average, d.average, d.good, d.excellent⟩

/-- Loop body of `parse_pdf_xml` for the pages after the first (`extract.py`
lines 155-159): the first page whose rating extraction returns a record is
merged into the front-matter dictionary; when that dictionary is `None`,
`frontpage.update(res)` raises `AttributeError`. -/
def processPagesAux (fp : Option FrontRec) :
    List (List Token) → Except PyErr (Option MergedRec)
  | [] => .ok none
  | p :: ps =>
    match extract_data_from_page (extract_page p) with
    | .error e => .error e
    | .ok none => processPagesAux fp ps
    | .ok (some r) =>
      match fp with
      | none => .error .attributeError
      | some f => .ok (some (mergeRecs f r))

/-- Embedding of the page loop of `parse_pdf_xml` (`extract.py` lines
149-160), over the per-page token lists: page 0 feeds `extract_frontpage`,
every later page feeds `extract_data_from_page` until the first match. -/
def parse_pdf_xml : List (List Token) → Except PyErr (Option MergedRec)
  | [] => .ok none
  | p0 :: ps =>
    match extract_frontpage (extract_page p0) with
    | .error e => .error e
    | .ok fp => processPagesAux fp ps

/-- Aggregation entity of `calculate.py` (lines 4-10): five integer counts. -/
structure Rating where
  poor : ℤ
  below_average : ℤ
  average : ℤ
  good : ℤ
  excellent : ℤ
  deriving DecidableEq

/-- Embedding of `Rating.zero` (`calculate.py` lines 12-14). -/
def Rating.zero : Rating := ⟨0, 0, 0, 0, 0⟩

/-- Embedding of `Rating.add` (`calculate.py` lines 26-33): componentwise
sum producing a new value. -/
def Rating.add (a b : Rating) : Rating :=
  ⟨a.poor + b.poor, a.below_average + b.below_average, a.average + b.average,
    a.good + b.good, a.excellent + b.excellent⟩

/-- Embedding of `Rating.get_count` (`calculate.py` lines 44-45). -/
def Rating.get_count (r : Rating) : ℤ :=
  r.poor + r.below_average + r.average + r.good + r.excellent

/-- The spec's rating-table scenario as a three-line page: title line with
the statistics appended, header line, bucket line. -/
def ratingScenarioPage : List String :=
  ["15 Taking everything into account, the instructor was: 4.10 0.95 25",
   "Field Mean Std Deviation Count",
   "Poor (1) Below Average (2) Average (7) Good (7) Excellent (10)"]

/-- The nearest page shape that `extract_data_from_page` accepts: the exact
title and header literals first, then the scenario's title-with-statistics
line, then the bucket line. -/
def ratingMatchedPage : List String :=
  ["15 Taking everything into account, the instructor was:",
   "Field Mean Std Deviation Count",
   "15 Taking everything into account, the instructor was: 4.10 0.95 25",
   "Poor (1) Below Average (2) Average (7) Good (7) Excellent (10)"]

/-- A matching page whose first parenthesized bucket token holds `abc`
instead of an integer (the statistics line carries a two-character gap
`" 1 "` after the title, so the last three tokens are `4.10 0.95 25`). -/
def abcRatingPage : List String :=
  ["15 Taking everything into account, the instructor was:",
   "Field Mean Std Deviation Count",
   "15 Taking everything into account, the instructor was: 1 4.10 0.95 25",
   "Poor (abc) Below Average (2) Average (7) Good (7) Excellent (10)"]

/-- A matching page whose last line does not split into eleven tokens. -/
def shortLastLinePage : List String :=
  ["15 Taking everything into account, the instructor was:",
   "Field Mean Std Deviation Count",
   "15 Taking everything into account, the instructor was: 1 4.10 0.95 25",
   "Poor (1)"]

/-- A front-page line containing both the `"Eval -"` and the `"Evals -"`
separator, at different positions. -/
def bothSepsLine : String := "2020 Spring Eval - Evals - CS1 A B"

/-- Token pages of a document whose first page has no front matter and
whose second page matches the rating table: the input on which
`parse_pdf_xml` reaches `frontpage.update(res)` with `frontpage = None`. -/
def crashPages : List (List Token) :=
  [[],
   [⟨"15 Taking everything into account, the instructor was:", 0, 0⟩,
    ⟨"Field Mean Std Deviation Count", 0, 1⟩,
    ⟨"15 Taking everything into account, the instructor was: 1 4.10 0.95 25", 0, 2⟩,
    ⟨"Poor (1) Below Average (2) Average (7) Good (7) Excellent (10)", 0, 3⟩]]

/-- Consecutive runs of equal `y` in a token list: the declarative grouping
that the walk of `extract_page` implements. -/
def runsByY : List Token → List (List Token)
  | [] => []
  | w :: ws =>
    (w :: ws.takeWhile (fun t => t.y == w.y)) ::
      runsByY (ws.dropWhile (fun t => t.y == w.y))
  termination_by l => l.length
  decreasing_by
    simp only [List.length_cons]
    exact Nat.lt_succ_of_le (List.Sublist.length_le (List.dropWhile_sublist _))

/-! ### Claim C1: the spec's rating-table scenario -/

/-- Claim C1 counterexample: on the three-line page whose first line is the
title string with `4.10 0.95 25` appended, `extract_data_from_page` returns
no record at all (line 0 must equal the bare title literal exactly), so it
does not return the record the claim states. -/
theorem c1_rating_scenario_counterexample :
    extract_data_from_page ratingScenarioPage = .ok none ∧
    ¬ ∃ r : DataRec, extract_data_from_page ratingScenarioPage = .ok (some r) := by
  have h0 : extract_data_from_page ratingScenarioPage = .ok none := by decide
  refine ⟨h0, ?_⟩
  rintro ⟨r, hr⟩
  rw [h0] at hr
  exact Option.noConfusion (Except.ok.inj hr)

/-- Claim C1 as amended: the three-line scenario page yields no match, and
on the four-line page that does match (exact title and header first), the
record fields are all strings and the mean comes out as `".10"`: the
`len(LINE_TITLE) + 2` character offset eats the first two characters of
`" 4.10"`, so only `.split(' ')[-3:]` tokens `".10" "0.95" "25"` remain. -/
theorem c1_rating_scenario :
    extract_data_from_page ratingScenarioPage = .ok none ∧
    extract_data_from_page ratingMatchedPage =
      .ok (some ⟨".10", "0.95", "25", "1", "2", "7", "7", "10"⟩) := by
  constructor <;> decide

/-! ### Claim C2: the rating-bucket fields -/

/-- Claim C2 counterexample: the bucket fields are not parsed integers: a
page whose first bucket token is `(abc)` extracts successfully and the
returned `poor` field is the string `"abc"`, which is no integer at all. -/
theorem c2_bucket_fields_counterexample :
    extract_data_from_page abcRatingPage =
      .ok (some ⟨"4.10", "0.95", "25", "abc", "2", "7", "7", "10"⟩) ∧
    DataRec.poor ⟨"4.10", "0.95", "25", "abc", "2", "7", "7", "10"⟩ = "abc" := by
  constructor <;> decide

/-- Claim C2 as amended: whenever `extract_data_from_page` succeeds, the
last line splits into exactly eleven space-separated tokens and the five
bucket fields are the strings obtained by slicing the first and last
character off the tokens at positions 1, 4, 6, 8, 10 — no integer parsing
and no check that the sliced characters are parentheses. -/
theorem c2_bucket_fields_strings :
    ∀ (table : List String) (r : DataRec),
      extract_data_from_page table = .ok (some r) →
      ∃ parts : List String,
        pySplitAll ((table.getLast?).getD "") " " = parts ∧
        parts.length = 11 ∧
        r.poor = extract_paren (parts.getD 1 "") ∧
        r.below_average = extract_paren (parts.getD 4 "") ∧
        r.average = extract_paren (parts.getD 6 "") ∧
        r.good = extract_paren (parts.getD 8 "") ∧
        r.excellent = extract_paren (parts.getD 10 "") := by
  intro table r h
  unfold extract_data_from_page at h
  split at h
  · exact absurd (Except.ok.inj h) (fun hx => Option.noConfusion hx)
  next t0 rest =>
    split at h
    · exact absurd (Except.ok.inj h) (fun hx => Option.noConfusion hx)
    next ht0 =>
      split at h
      · exact Except.noConfusion h
      next t1 rest2 =>
        split at h
        · exact absurd (Except.ok.inj h) (fun hx => Option.noConfusion hx)
        next ht1 =>
          split at h
          · exact Except.noConfusion h
          next s0 rest3 =>
            split at h
            next mean stdev cnt hstats =>
              split at h
              next a0 poor a2 a3 below a5 avg a7 good2 a9 exc hlast =>
                have hrec := Option.some.inj (Except.ok.inj h)
                subst hrec
                refine ⟨[a0, poor, a2, a3, below, a5, avg, a7, good2, a9, exc],
                  ?_, rfl, rfl, rfl, rfl, rfl, rfl⟩
                have hlast2 : (t0 :: t1 :: s0 :: rest3).getLast? =
                    (s0 :: rest3).getLast? := by
                  rw [List.getLast?_cons_cons, List.getLast?_cons_cons]
                rw [hlast2]
                exact hlast
              · exact Except.noConfusion h
            · exact Except.noConfusion h

/-- Claim C2 amended, evaluated at the concrete `abc` page. -/
theorem c2_bucket_fields_strings_witness :
    ∃ parts : List String,
      pySplitAll ((abcRatingPage.getLast?).getD "") " " = parts ∧
      parts.length = 11 ∧
      DataRec.poor ⟨"4.10", "0.95", "25", "abc", "2", "7", "7", "10"⟩ =
        extract_paren (parts.getD 1 "") ∧
      DataRec.below_average ⟨"4.10", "0.95", "25", "abc", "2", "7", "7", "10"⟩ =
        extract_paren (parts.getD 4 "") ∧
      DataRec.average ⟨"4.10", "0.95", "25", "abc", "2", "7", "7", "10"⟩ =
        extract_paren (parts.getD 6 "") ∧
      DataRec.good ⟨"4.10", "0.95", "25", "abc", "2", "7", "7", "10"⟩ =
        extract_paren (parts.getD 8 "") ∧
      DataRec.excellent ⟨"4.10", "0.95", "25", "abc", "2", "7", "7", "10"⟩ =
        extract_paren (parts.getD 10 "") :=
  c2_bucket_fields_strings abcRatingPage
    ⟨"4.10", "0.95", "25", "abc", "2", "7", "7", "10"⟩ (by decide)

/-! ### Claim C3: malformed numeric token -/

/-- Claim C3 counterexample: a page whose first bucket token is `(abc)` is
not rejected: `extract_data_from_page` returns a full record (with
`poor = "abc"`), not "no match". -/
theorem c3_malformed_token_counterexample :
    extract_data_from_page abcRatingPage =
      .ok (some ⟨"4.10", "0.95", "25", "abc", "2", "7", "7", "10"⟩) ∧
    extract_data_from_page abcRatingPage ≠ .ok none := by
  constructor <;> decide

/-- Claim C3 as amended: a parenthesized rating token that contains no
integer does not fail the page: extraction succeeds and the record carries
the token's inner text verbatim as a string (`extract_paren` only slices
off the first and last characters; integer parsing happens only downstream
in `Rating.from_dict`). -/
theorem c3_malformed_token_returns_record :
    extract_data_from_page abcRatingPage =
      .ok (some ⟨"4.10", "0.95", "25", "abc", "2", "7", "7", "10"⟩) := by
  decide

/-! ### Claim C4: missing front matter with a later rating match -/

/-- Claim C4: on a document whose first page yields no front matter while a
later page matches the rating table, the embedded `parse_pdf_xml` raises
`AttributeError` (from `None.update`) instead of yielding nothing; when no
later page matches, the document does yield nothing. -/
theorem c4_missing_front_matter_crashes :
    parse_pdf_xml crashPages = .error .attributeError ∧
    parse_pdf_xml [[]] = .ok none := by
  constructor <;> decide

/-! ### Claim C5: no-match outcomes and exceptions -/

/-- Fewer than two reconstructed lines yield "no match" from the
front-matter extractor. -/
lemma extract_frontpage_short (t : List String) (h : t.length < 2) :
    extract_frontpage t = .ok none := by
  rcases t with _ | ⟨a, _ | ⟨b, t⟩⟩
  · rfl
  · rfl
  · exfalso
    simp only [List.length_cons] at h
    omega

/-- A line index 1 containing none of the four separator substrings yields
"no match" from the front-matter extractor. -/
lemma extract_frontpage_nosep (l0 line : String) (rest : List String)
    (h1 : pyContains line "Eval -" = false) (h2 : pyContains line "Evals -" = false)
    (h3 : pyContains line "Evaluation -" = false)
    (h4 : pyContains line "CS" = false) :
    extract_frontpage (l0 :: line :: rest) = .ok none := by
  unfold pyContains at h4
  cases hx : splitFirstL "CS".data line.data with
  | none => simp [extract_frontpage, h1, h2, h3, hx]
  | some p =>
    rw [hx] at h4
    simp at h4

/-- A first line different from the title literal yields "no match" from
the rating-table extractor, whatever follows. -/
lemma extract_data_not_title (t0 : String) (rest : List String)
    (h : t0 ≠ LINE_TITLE) : extract_data_from_page (t0 :: rest) = .ok none := by
  simp [extract_data_from_page, h]

/-- A second line different from the header literal yields "no match" from
the rating-table extractor, whatever follows. -/
lemma extract_data_not_cols (t1 : String) (rest : List String)
    (h : t1 ≠ LINE_COLS) :
    extract_data_from_page (LINE_TITLE :: t1 :: rest) = .ok none := by
  simp [extract_data_from_page, h]

/-- Claim C5 counterexample: a matching page whose last line does not split
into eleven space-separated tokens makes `extract_data_from_page` raise a
`ValueError` (failed tuple unpacking) instead of returning "no match". -/
theorem c5_no_exceptions_counterexample :
    extract_data_from_page shortLastLinePage = .error .valueError ∧
    extract_data_from_page shortLastLinePage ≠ .ok none := by
  constructor <;> decide

/-- Claim C5 as amended: the listed shape mismatches that are checked
before any unpacking do yield "no match" without an exception — fewer than
two lines or no recognized separator for `extract_frontpage`, an empty
table or a non-title first line or a non-header second line for
`extract_data_from_page` — but the extractors are not exception-free: the
one-line table `[LINE_TITLE]` raises `IndexError` (so does the two-line
`[LINE_TITLE, LINE_COLS]` table), and a matching page whose last line does
not split into exactly eleven tokens raises `ValueError`. -/
theorem c5_no_match_and_exceptions :
    (∀ t : List String, t.length < 2 → extract_frontpage t = .ok none) ∧
    (∀ (l0 line : String) (rest : List String),
        pyContains line "Eval -" = false → pyContains line "Evals -" = false →
        pyContains line "Evaluation -" = false → pyContains line "CS" = false →
        extract_frontpage (l0 :: line :: rest) = .ok none) ∧
    extract_data_from_page [] = .ok none ∧
    (∀ (t0 : String) (rest : List String), t0 ≠ LINE_TITLE →
        extract_data_from_page (t0 :: rest) = .ok none) ∧
    (∀ (t1 : String) (rest : List String), t1 ≠ LINE_COLS →
        extract_data_from_page (LINE_TITLE :: t1 :: rest) = .ok none) ∧
    extract_data_from_page [LINE_TITLE] = .error .indexError ∧
    extract_data_from_page [LINE_TITLE, LINE_COLS] = .error .indexError ∧
    extract_data_from_page shortLastLinePage = .error .valueError :=
  ⟨extract_frontpage_short, extract_frontpage_nosep, rfl,
    extract_data_not_title, extract_data_not_cols, by decide, by decide, by decide⟩

/-! ### Claim C6: separator trial order -/

/-- Claim C6 counterexample: on a line containing both `"Eval -"` and
`"Evals -"`, the code splits at `"Eval -"` (the loop tries `"Eval"` first),
so the result differs from the one the claimed `"Evals -"`-first order
would produce. -/
theorem c6_separator_order_counterexample :
    extract_frontpage ["x", bothSepsLine] =
      .ok (some ⟨"Evals", "- CS1 A B", "2020", "Spring"⟩) ∧
    extract_frontpage ["x", bothSepsLine] ≠
      .ok (some ⟨"CS1", "A B", "2020", "Spring Eval -"⟩) := by
  constructor <;> decide

/-- Claim C6 as amended: the separators are tried in the order `"Eval -"`,
then `"Evals -"`, then `"Evaluation -"`; the first of them (in that order)
occurring anywhere in line index 1 decides the split, as the two concrete
evaluations illustrate. -/
theorem c6_separator_order :
    (∀ (l0 line : String) (rest : List String),
        pyContains line "Eval -" = true →
        extract_frontpage (l0 :: line :: rest) = sepPath line "Eval -") ∧
    (∀ (l0 line : String) (rest : List String),
        pyContains line "Eval -" = false → pyContains line "Evals -" = true →
        extract_frontpage (l0 :: line :: rest) = sepPath line "Evals -") ∧
    (∀ (l0 line : String) (rest : List String),
        pyContains line "Eval -" = false → pyContains line "Evals -" = false →
        pyContains line "Evaluation -" = true →
        extract_frontpage (l0 :: line :: rest) = sepPath line "Evaluation -") ∧
    extract_frontpage ["x", bothSepsLine] =
      .ok (some ⟨"Evals", "- CS1 A B", "2020", "Spring"⟩) ∧
    extract_frontpage ["x", "2020 Spring Evaluation - CS1 A B"] =
      .ok (some ⟨"CS1", "A B", "2020", "Spring"⟩) := by
  refine ⟨?_, ?_, ?_, by decide, by decide⟩
  · intro l0 line rest h1
    simp [extract_frontpage, h1]
  · intro l0 line rest h1 h2
    simp [extract_frontpage, h1, h2]
  · intro l0 line rest h1 h2 h3
    simp [extract_frontpage, h1, h2, h3]

/-! ### Claim C7: front-matter round trip -/

/-- Claim C7: whatever the other lines are, a page whose line index 1 is
exactly `"2020 Spring Evals - CS4XX-01 Jane Doe"` yields the front record
with course `CS4XX-01`, instructor `Jane Doe`, year `2020`, semester
`Spring`. -/
theorem c7_front_matter_round_trip :
    ∀ (l0 : String) (rest : List String),
      extract_frontpage (l0 :: "2020 Spring Evals - CS4XX-01 Jane Doe" :: rest) =
        .ok (some ⟨"CS4XX-01", "Jane Doe", "2020", "Spring"⟩) :=
  fun _ _ => rfl

/-! ### Claim C8: line reconstruction -/

/-- Per-run y bound used for run ordering. -/
lemma tokenLE_y {a b : Token} (h : tokenLE a b) : a.y ≤ b.y := by
  rcases h with h | ⟨h, _⟩
  · exact le_of_lt h
  · exact le_of_eq h

/-- The walk of `extract_page`, started on any current line, produces that
line extended by the tokens still sharing its `y`, then one joined line per
later run of equal `y`. -/
lemma walkAux_eq (ws : List Token) :
    ∀ (y : ℚ) (cur : List String),
      walkAux ws y cur =
        joinSp (cur ++ (ws.takeWhile (fun t => t.y == y)).map Token.text) ::
          (runsByY (ws.dropWhile (fun t => t.y == y))).map
            (fun c => joinSp (c.map Token.text)) := by
  induction ws with
  | nil => intro y cur; simp [walkAux, runsByY]
  | cons w ws ih =>
    intro y cur
    by_cases hy : y = w.y
    · have hp : (w.y == y) = true := by simp [hy]
      rw [walkAux, if_neg (by simp [hy]), hy, ih w.y (cur ++ [w.text])]
      rw [List.takeWhile_cons_of_pos (by simp), List.dropWhile_cons_of_pos (by simp)]
      simp
    · have hp : (w.y == y) = false := by simp [Ne.symm hy]
      rw [walkAux, if_pos hy, ih w.y [w.text]]
      rw [List.takeWhile_cons_of_neg (by simp [hp]), List.dropWhile_cons_of_neg (by simp [hp])]
      rw [runsByY]
      simp

/-- On a nonempty sorted list the walk produces exactly one joined line per
run of equal `y`. -/
lemma walkAux_runs (w : Token) (rest : List Token) :
    walkAux (w :: rest) w.y [] =
      (runsByY (w :: rest)).map (fun c => joinSp (c.map Token.text)) := by
  rw [walkAux_eq]
  rw [List.takeWhile_cons_of_pos (by simp), List.dropWhile_cons_of_pos (by simp)]
  rw [runsByY]
  simp

/-- Every token after the leading equal-`y` run of a sorted list has a
strictly larger `y`. -/
lemma sorted_dropWhile_gt (w : Token) (ws : List Token)
    (hs : List.Sorted tokenLE (w :: ws)) :
    ∀ t ∈ ws.dropWhile (fun t => t.y == w.y), w.y < t.y := by
  obtain ⟨hw, hws⟩ := List.sorted_cons.mp hs
  intro t ht
  cases hd : ws.dropWhile (fun t => t.y == w.y) with
  | nil => rw [hd] at ht; cases ht
  | cons d ds =>
    rw [hd] at ht
    have hdp : (d.y == w.y) = false := by
      have hh := List.head?_dropWhile_not (fun t => t.y == w.y) ws
      rw [hd] at hh
      simpa using hh
    have hdmem : d ∈ ws :=
      (List.dropWhile_sublist _).subset (by rw [hd]; exact List.mem_cons_self d ds)
    have hdy : w.y < d.y := by
      rcases hw d hdmem with h | ⟨h, _⟩
      · exact h
      · exact absurd h.symm (by simpa using hdp)
    rcases List.mem_cons.mp ht with rfl | hts
    · exact hdy
    · have hsor : List.Sorted tokenLE (d :: ds) := by
        have : List.Sublist (d :: ds) ws := by
          rw [← hd]; exact List.dropWhile_sublist _
        exact List.Pairwise.sublist this hws
      have := (List.sorted_cons.mp hsor).1 t hts
      exact lt_of_lt_of_le hdy (tokenLE_y this)

/-- Runs of a sorted token list: each run is nonempty, is exactly the
filter of the list at its `y`, and is sorted by `x`; the run `y`s are
strictly increasing and realized by tokens of the list. -/
lemma runs_spec : ∀ (n : Nat) (l : List Token), l.length ≤ n →
    List.Sorted tokenLE l →
    ∃ ys : List ℚ, ys.Sorted (· < ·) ∧
      (∀ y ∈ ys, ∃ t ∈ l, t.y = y) ∧
      List.Forall₂ (fun (y : ℚ) (run : List Token) =>
          run ≠ [] ∧ run = l.filter (fun t => t.y == y) ∧
          run.Sorted (fun a b : Token => a.x ≤ b.x))
        ys (runsByY l) := by
  intro n
  induction n with
  | zero =>
    intro l hl _
    have hnil : l = [] := List.length_eq_zero.mp (Nat.le_zero.mp hl)
    subst hnil
    exact ⟨[], List.sorted_nil, by simp, by rw [runsByY]; exact List.Forall₂.nil⟩
  | succ n ih =>
    intro l hl hs
    cases l with
    | nil => exact ⟨[], List.sorted_nil, by simp, by rw [runsByY]; exact List.Forall₂.nil⟩
    | cons w ws =>
      obtain ⟨hw, hws⟩ := List.sorted_cons.mp hs
      have hdl : (ws.dropWhile (fun t => t.y == w.y)).length ≤ n := by
        have h1 := List.Sublist.length_le (List.dropWhile_sublist
          (l := ws) (fun t => t.y == w.y))
        have h2 : ws.length ≤ n := by
          simp only [List.length_cons] at hl
          omega
        omega
      have hdrop_sorted : List.Sorted tokenLE (ws.dropWhile (fun t => t.y == w.y)) :=
        List.Pairwise.sublist (List.dropWhile_sublist _) hws
      obtain ⟨ys, hys_sorted, hys_real, hys_f2⟩ :=
        ih (ws.dropWhile (fun t => t.y == w.y)) hdl hdrop_sorted
      have hgt : ∀ t ∈ ws.dropWhile (fun t => t.y == w.y), w.y < t.y :=
        sorted_dropWhile_gt w ws hs
      have htake_y : ∀ t ∈ ws.takeWhile (fun t => t.y == w.y), t.y = w.y := by
        intro t ht
        simpa using List.mem_takeWhile_imp ht
      have hfilter_head : (w :: ws).filter (fun t => t.y == w.y) =
          w :: ws.takeWhile (fun t => t.y == w.y) := by
        rw [List.filter_cons_of_pos (by simp)]
        congr 1
        conv_lhs => rw [← List.takeWhile_append_dropWhile
          (p := fun t => t.y == w.y) (l := ws)]
        rw [List.filter_append,
          List.filter_eq_self.mpr (fun a ha => by simp [htake_y a ha]),
          List.filter_eq_nil_iff.mpr ?_, List.append_nil]
        intro a ha
        simp [ne_of_gt (hgt a ha)]
      have hrun_x : List.Sorted (fun a b : Token => a.x ≤ b.x)
          (w :: ws.takeWhile (fun t => t.y == w.y)) := by
        have hrun_sub : List.Sublist (w :: ws.takeWhile (fun t => t.y == w.y)) (w :: ws) :=
          List.Sublist.cons₂ w (List.takeWhile_sublist _)
        have hrun_pw := List.Pairwise.sublist hrun_sub hs
        refine List.Pairwise.imp_of_mem ?_ hrun_pw
        intro a b ha hb hab
        have hay : a.y = w.y := by
          rcases List.mem_cons.mp ha with rfl | ha'
          · rfl
          · exact htake_y a ha'
        have hby : b.y = w.y := by
          rcases List.mem_cons.mp hb with rfl | hb'
          · rfl
          · exact htake_y b hb'
        rcases hab with h | ⟨_, hx⟩
        · exfalso
          rw [hay, hby] at h
          exact lt_irrefl w.y h
        · exact hx
      have hys_gt : ∀ y ∈ ys, w.y < y := by
        intro y hy
        obtain ⟨t, ht, rfl⟩ := hys_real y hy
        exact hgt t ht
      have hf2' : List.Forall₂ (fun (y : ℚ) (run : List Token) =>
          run ≠ [] ∧ run = (w :: ws).filter (fun t => t.y == y) ∧
          run.Sorted (fun a b : Token => a.x ≤ b.x))
          ys (runsByY (ws.dropWhile (fun t => t.y == w.y))) := by
        refine hys_f2.imp ?_
        intro y run hq
        obtain ⟨hne, hfil, hx⟩ := hq
        have hy_gt : w.y < y := by
          obtain ⟨t, ht⟩ := List.exists_mem_of_ne_nil run hne
          have ht' : t ∈ (ws.dropWhile (fun t => t.y == w.y)).filter
              (fun t => t.y == y) := hfil ▸ ht
          obtain ⟨htm, hty⟩ := List.mem_filter.mp ht'
          have hty' : t.y = y := by simpa using hty
          exact hty' ▸ hgt t htm
        refine ⟨hne, ?_, hx⟩
        rw [List.filter_cons_of_neg (by simp [ne_of_lt hy_gt])]
        conv_rhs => rw [← List.takeWhile_append_dropWhile
          (p := fun t => t.y == w.y) (l := ws)]
        rw [List.filter_append,
          List.filter_eq_nil_iff.mpr ?_, List.nil_append]
        · exact hfil
        · intro a ha
          have := htake_y a ha
          simp [this, ne_of_lt hy_gt]
      refine ⟨w.y :: ys, List.sorted_cons.mpr ⟨hys_gt, hys_sorted⟩, ?_, ?_⟩
      · intro y hy
        rcases List.mem_cons.mp hy with rfl | hy'
        · exact ⟨w, List.mem_cons_self w ws, rfl⟩
        · obtain ⟨t, ht, rfl⟩ := hys_real y hy'
          exact ⟨t, List.mem_cons_of_mem w ((List.dropWhile_sublist _).subset ht), rfl⟩
      · rw [runsByY]
        exact List.Forall₂.cons
          ⟨List.cons_ne_nil _ _, hfilter_head.symm, hrun_x⟩ hf2'

/-- Page extraction through the run decomposition, in the nonempty case. -/
lemma extract_page_eq_cons (ws : List Token) (w : Token) (rest : List Token)
    (t0 : String) (ts : List String)
    (hsort : sortTokens ws = w :: rest)
    (htab : (runsByY (w :: rest)).map (fun c => joinSp (c.map Token.text)) =
      t0 :: ts) :
    extract_page ws = if t0 = NO_RESULTS then ts else t0 :: ts := by
  unfold extract_page
  rw [hsort]
  dsimp only
  rw [walkAux_runs, htab]

/-- Claim C8: reconstructed lines come in strictly ascending `y` order;
each produced line is the space-join of the texts of exactly the page's
tokens sharing that line's `y`, arranged in ascending `x`; and a page with
zero tokens yields the empty sequence. -/
theorem c8_line_reconstruction :
    extract_page [] = [] ∧
    ∀ ws : List Token, ∃ ys : List ℚ,
      ys.Sorted (· < ·) ∧
      List.Forall₂ (fun (y : ℚ) (line : String) =>
          ∃ ts : List Token,
            ts.Perm (ws.filter (fun t => t.y == y)) ∧
            ts.Sorted (fun a b : Token => a.x ≤ b.x) ∧
            line = joinSp (ts.map Token.text))
        ys (extract_page ws) := by
  refine ⟨rfl, ?_⟩
  intro ws
  cases hsort : sortTokens ws with
  | nil =>
    refine ⟨[], List.sorted_nil, ?_⟩
    have hpage : extract_page ws = [] := by
      unfold extract_page
      rw [hsort]
    rw [hpage]
    exact List.Forall₂.nil
  | cons w rest =>
    have hperm : (w :: rest).Perm ws := by
      rw [← hsort]
      exact List.perm_insertionSort tokenLE ws
    have hsorted : List.Sorted tokenLE (w :: rest) := by
      rw [← hsort]
      exact List.sorted_insertionSort tokenLE ws
    obtain ⟨ys, hys_s, _, hf2⟩ :=
      runs_spec (w :: rest).length (w :: rest) le_rfl hsorted
    have hf2' : List.Forall₂ (fun (y : ℚ) (line : String) =>
        ∃ ts : List Token,
          ts.Perm (ws.filter (fun t => t.y == y)) ∧
          ts.Sorted (fun a b : Token => a.x ≤ b.x) ∧
          line = joinSp (ts.map Token.text))
        ys ((runsByY (w :: rest)).map (fun c => joinSp (c.map Token.text))) := by
    -- each run is a permutation of the corresponding filter of the raw page
      rw [List.forall₂_map_right_iff]
      refine hf2.imp ?_
      intro y run hq
      obtain ⟨_, hfil, hx⟩ := hq
      refine ⟨run, ?_, hx, rfl⟩
      rw [hfil]
      exact hperm.filter _
    cases htab : (runsByY (w :: rest)).map (fun c => joinSp (c.map Token.text)) with
    | nil =>
      exfalso
      rw [runsByY] at htab
      simp at htab
    | cons t0 ts =>
      rw [htab] at hf2'
      obtain ⟨y0, ys2, hh, ht, rfl⟩ := List.forall₂_cons_right_iff.mp hf2'
      rw [extract_page_eq_cons ws w rest t0 ts hsort htab]
      by_cases hsent : t0 = NO_RESULTS
      · rw [if_pos hsent]
        exact ⟨ys2, hys_s.of_cons, ht⟩
      · rw [if_neg hsent]
        exact ⟨y0 :: ys2, hys_s, List.Forall₂.cons hh ht⟩

/-! ### Claim C9: aggregation is associative and commutative -/

/-- Claim C9: `Rating.add` is associative and commutative. -/
theorem c9_rating_add_assoc_comm :
    ∀ a b c : Rating,
      (a.add b).add c = a.add (b.add c) ∧ a.add b = b.add a := by
  intro a b c
  cases a; cases b; cases c
  refine ⟨?_, ?_⟩ <;> simp only [Rating.add, Rating.mk.injEq] <;>
    refine ⟨by omega, by omega, by omega, by omega, by omega⟩

/-! ### Claim C10: the CS fallback consumes the separator -/

/-- Claim C10: when line index 1 contains none of the three Eval-family
separators but `"CS"` occurs, the line is split at the first occurrence of
`"CS"` and those two characters are consumed: the rest of the parsing only
sees the text strictly after `"CS"`, so the course of
`"2020 Spring CS4XX-01 Jane Doe"` is `"4XX-01"`, while the Eval-separator
path keeps the `"CS"` prefix on the course. -/
theorem c10_cs_fallback_consumes_cs :
    (∀ (l0 line : String) (rest : List String) (b a : List Char),
        pyContains line "Eval -" = false → pyContains line "Evals -" = false →
        pyContains line "Evaluation -" = false →
        splitFirstL "CS".data line.data = some (b, a) →
        extract_frontpage (l0 :: line :: rest) =
          frontRest (String.mk b) (String.mk a)) ∧
    (∀ (l0 : String) (rest : List String),
        extract_frontpage (l0 :: "2020 Spring CS4XX-01 Jane Doe" :: rest) =
          .ok (some ⟨"4XX-01", "Jane Doe", "2020", "Spring"⟩)) ∧
    extract_frontpage ["", "2020 Spring Evals - CS4XX-01 Jane Doe"] =
      .ok (some ⟨"CS4XX-01", "Jane Doe", "2020", "Spring"⟩) := by
  refine ⟨?_, fun _ _ => rfl, by decide⟩
  intro l0 line rest b a h1 h2 h3 hcs
  simp [extract_frontpage, h1, h2, h3, hcs]

end EvalAverages
